import Mathlib

/-!
Verification of the Mafia-Duel commit-reveal layer.

This file gives a shallow embedding, in Lean 4, of the commitment scheme and
client-side state of the Mafia-Duel repository:

* `zkActionService.ts` (SHA-256 revision): `sha256Commitment`, `zkCommit`,
  `zkVerify`, `saveAll`, `getStoredCommitment`;
* `zkActionService.ts` (Poseidon revision): `zkCommit` / `zkVerify` over the
  external `poseidon-lite` hash, modelled as an abstract field-valued function;
* the generated contract bindings (`bindings.ts` in both revisions): the
  `MafiaError` enumerations;
* the two revisions of the `LastEvent` last-resolution summary renderer.

JavaScript `number` slot targets and `bigint` nonces are embedded as `Int`
(the claims under scrutiny range over u32 targets and u64 nonces, stated as
hypotheses where needed); byte sequences as `List Nat` with entries below 256;
hex strings as `String`.  The platform digest `crypto.subtle.digest('SHA-256')`
is embedded by a full executable FIPS 180-4 SHA-256 over byte lists.
-/

namespace MafiaDuel

set_option maxRecDepth 16384

/-! ### JavaScript string helpers

`Number.prototype.toString(16)` / `BigInt.prototype.toString(16)` produce the
lowercase hex digits of the value, most significant first, with no leading
zeros ("0" for 0).  `String.prototype.padStart(w, c)` left-pads to width `w`.
-/

/-- The lowercase hex digit for a value below 16 (as JavaScript `toString(16)`
prints one digit). -/
def hexDigitChar (n : Nat) : Char :=
  if n < 10 then Char.ofNat (48 + n) else Char.ofNat (87 + n)

/-- Digits of `n` in base 16, most significant first, fuel-driven so that the
kernel can evaluate it.  `hexCharsAux fuel n` is correct whenever `n < fuel`. -/
def hexCharsAux : Nat → Nat → List Char
  | 0, _ => []
  | fuel + 1, n =>
    if n < 16 then [hexDigitChar n]
    else hexCharsAux fuel (n / 16) ++ [hexDigitChar (n % 16)]

/-- JavaScript `v.toString(16)` for a non-negative integer `v`: lowercase hex,
no leading zeros, `"0"` for zero. -/
def natToHex (n : Nat) : String := String.mk (hexCharsAux (n + 1) n)

/-- JavaScript `s.padStart(w, c)`. -/
def jsPadStart (s : String) (w : Nat) (c : Char) : String :=
  String.mk (List.replicate (w - s.length) c) ++ s

/-- ASCII lowercasing of one character. -/
def jsCharToLower (c : Char) : Char :=
  if 65 ≤ c.toNat ∧ c.toNat ≤ 90 then Char.ofNat (c.toNat + 32) else c

/-- `s.toLowerCase()` on the ASCII strings the service compares (hex
commitment strings); embedded character-wise over the string's characters. -/
def jsToLower (s : String) : String := String.mk (s.data.map jsCharToLower)

/-- The value of one hex digit character (inverse of `hexDigitChar`). -/
def hexDigitVal (c : Char) : Nat :=
  if 97 ≤ c.toNat then c.toNat - 87 else c.toNat - 48

/-- The value of a big-endian string of hex digit characters. -/
def hexListVal (l : List Char) : Nat :=
  l.foldl (fun a c => 16 * a + hexDigitVal c) 0

/-! ### SHA-256 over byte lists (model of `crypto.subtle.digest('SHA-256', _)`)

A direct executable FIPS 180-4 implementation: bytes are `Nat` below 256,
words are `Nat` below `2 ^ 32`. -/

/-- Truncation to a 32-bit word. -/
def w32 (n : Nat) : Nat := n % 4294967296

/-- Right rotation of a 32-bit word by `k` (for `0 < k < 32`). -/
def rotr32 (k x : Nat) : Nat := w32 ((x >>> k) ||| (x <<< (32 - k)))

/-- SHA-256 `Ch(x,y,z)`; bitwise complement of a word is xor with `2^32 - 1`. -/
def ch32 (x y z : Nat) : Nat := (x &&& y) ^^^ ((x ^^^ 4294967295) &&& z)

/-- SHA-256 `Maj(x,y,z)`. -/
def maj32 (x y z : Nat) : Nat := (x &&& y) ^^^ (x &&& z) ^^^ (y &&& z)

/-- SHA-256 big sigma 0. -/
def bsig0 (x : Nat) : Nat := rotr32 2 x ^^^ rotr32 13 x ^^^ rotr32 22 x

/-- SHA-256 big sigma 1. -/
def bsig1 (x : Nat) : Nat := rotr32 6 x ^^^ rotr32 11 x ^^^ rotr32 25 x

/-- SHA-256 small sigma 0. -/
def ssig0 (x : Nat) : Nat := rotr32 7 x ^^^ rotr32 18 x ^^^ (x >>> 3)

/-- SHA-256 small sigma 1. -/
def ssig1 (x : Nat) : Nat := rotr32 17 x ^^^ rotr32 19 x ^^^ (x >>> 10)

/-- The 64 SHA-256 round constants. -/
def sha256K : List Nat :=
  [1116352408, 1899447441, 3049323471, 3921009573, 961987163, 1508970993,
   2453635748, 2870763221, 3624381080, 310598401, 607225278, 1426881987,
   1925078388, 2162078206, 2614888103, 3248222580, 3835390401, 4022224774,
   264347078, 604807628, 770255983, 1249150122, 1555081692, 1996064986,
   2554220882, 2821834349, 2952996808, 3210313671, 3336571891, 3584528711,
   113926993, 338241895, 666307205, 773529912, 1294757372, 1396182291,
   1695183700, 1986661051, 2177026350, 2456956037, 2730485921, 2820302411,
   3259730800, 3345764771, 3516065817, 3600352804, 4094571909, 275423344,
   430227734, 506948616, 659060556, 883997877, 958139571, 1322822218,
   1537002063, 1747873779, 1955562222, 2024104815, 2227730452, 2361852424,
   2428436474, 2756734187, 3204031479, 3329325298]

/-- The initial SHA-256 hash state. -/
def sha256H0 : List Nat :=
  [1779033703, 3144134277, 1013904242, 2773480762, 1359893119, 2600822924,
   528734635, 1541459225]

/-- A 64-bit value as 8 big-endian bytes. -/
def be64 (n : Nat) : List Nat :=
  [n / 2 ^ 56 % 256, n / 2 ^ 48 % 256, n / 2 ^ 40 % 256, n / 2 ^ 32 % 256,
   n / 2 ^ 24 % 256, n / 2 ^ 16 % 256, n / 2 ^ 8 % 256, n % 256]

/-- A 32-bit word as 4 big-endian bytes. -/
def be32 (n : Nat) : List Nat :=
  [n / 2 ^ 24 % 256, n / 2 ^ 16 % 256, n / 2 ^ 8 % 256, n % 256]

/-- SHA-256 padding: append `0x80`, zeros to 56 mod 64, then the bit length as
a big-endian 64-bit value. -/
def padMessage (msg : List Nat) : List Nat :=
  msg ++ 128 :: List.replicate ((64 - (msg.length + 9) % 64) % 64) 0
      ++ be64 (8 * msg.length)

/-- Groups of 4 bytes into big-endian 32-bit words. -/
def bytesToWords : List Nat → List Nat
  | a :: b :: c :: d :: rest =>
    (((a * 256 + b) * 256 + c) * 256 + d) :: bytesToWords rest
  | _ => []

/-- Split into chunks of 64 entries (fuel-driven). -/
def chunksAux : Nat → List Nat → List (List Nat)
  | 0, _ => []
  | _, [] => []
  | fuel + 1, l => l.take 64 :: chunksAux fuel (l.drop 64)

/-- Split into chunks of 64 entries. -/
def chunks64 (l : List Nat) : List (List Nat) := chunksAux l.length l

/-- Extend the message schedule by `c` more words; the schedule so far is kept
in reverse order (most recent word first). -/
def extendSched : Nat → List Nat → List Nat
  | 0, rw => rw
  | c + 1, rw =>
    extendSched c
      (w32 (ssig1 (rw.getD 1 0) + rw.getD 6 0 + ssig0 (rw.getD 14 0)
        + rw.getD 15 0) :: rw)

/-- The 64-word message schedule of a 16-word block. -/
def schedule (block : List Nat) : List Nat := (extendSched 48 block.reverse).reverse

/-- One round of the SHA-256 compression function on the 8-word state. -/
def compressRound (st : List Nat) (k w : Nat) : List Nat :=
  match st with
  | [a, b, c, d, e, f, g, h] =>
    let t1 := w32 (h + bsig1 e + ch32 e f g + k + w)
    let t2 := w32 (bsig0 a + maj32 a b c)
    [w32 (t1 + t2), a, b, c, w32 (d + t1), e, f, g]
  | other => other

/-- Compress one 16-word block into the running hash state. -/
def compressBlock (h : List Nat) (block : List Nat) : List Nat :=
  let st := (sha256K.zip (schedule block)).foldl
    (fun s kw => compressRound s kw.1 kw.2) h
  List.zipWith (fun x y => w32 (x + y)) h st

/-- SHA-256 of a byte list, as a list of 32 bytes. -/
def sha256 (msg : List Nat) : List Nat :=
  let hw := ((chunks64 (padMessage msg)).map bytesToWords).foldl
    compressBlock sha256H0
  (hw.map (fun wd => [wd / 2 ^ 24 % 256, wd / 2 ^ 16 % 256,
    wd / 2 ^ 8 % 256, wd % 256])).flatten

/-! ### The SHA-256 revision of `zkActionService.ts`

JavaScript `number` / `bigint` values are embedded as `Int`.  BigInt shifting
is floor division (`Int.fdiv`), BigInt masking with `0xFFFFFFFFn` is the
non-negative remainder (`Int.emod`, Lean's `%` on `Int`), and `target >>> 0`
is ECMAScript `ToUint32`. -/

/-- ECMAScript `ToUint32` of an integral value (`target >>> 0`). -/
def jsToUint32 (x : Int) : Nat := (x % 4294967296).toNat

/-- The 12-byte commitment preimage exactly as `sha256Commitment` builds it
with a `DataView`: `setUint32(0, target >>> 0)`, then the nonce split as
`hi = (nonce >> 32n) & 0xFFFFFFFFn`, `lo = nonce & 0xFFFFFFFFn` stored
big-endian at offsets 4 and 8. -/
def sha256Preimage (target nonce : Int) : List Nat :=
  be32 (jsToUint32 target)
    ++ be32 ((nonce.fdiv 4294967296) % 4294967296).toNat
    ++ be32 (nonce % 4294967296).toNat

/-- `b.toString(16).padStart(2, '0')` for one digest byte. -/
def byteToHex (b : Nat) : String := jsPadStart (natToHex b) 2 '0'

/-- `Array.from(new Uint8Array(digest)).map(b => ...).join('')`. -/
def bytesToHex (bs : List Nat) : String := String.join (bs.map byteToHex)

/-- `sha256Commitment(target, nonce)`: `'0x'` followed by the lowercase hex
encoding of the SHA-256 digest of the 12-byte preimage. -/
def sha256Commitment (target nonce : Int) : String :=
  "0x" ++ bytesToHex (sha256 (sha256Preimage target nonce))

/-- `zkVerify(commitment, target, nonce)` (SHA-256 revision): recompute the
commitment and compare case-insensitively. -/
def zkVerify (commitment : String) (target nonce : Int) : Bool :=
  jsToLower (sha256Commitment target nonce) == jsToLower commitment

/-- The `ZkCommitment` record stored by the client (both revisions). -/
structure ZkCommitment where
  commitment : String
  nonce : Int
  target : Int
  sessionId : Int
  round : Int
  phase : Int
  createdAt : String
deriving DecidableEq

/-- The nonce accumulated from `crypto.getRandomValues` output:
`nonce = (nonce << 8n) | BigInt(byte)` over the drawn bytes. -/
def nonceFromBytes (bs : List Nat) : Nat :=
  bs.foldl (fun a b => (a <<< 8) ||| b) 0

/-- `zkCommit(target, sessionId, round, phase)` (SHA-256 revision), with the
drawn random bytes and the timestamp passed in explicitly. -/
def zkCommit (target sessionId round phase : Int) (rawBytes : List Nat)
    (createdAt : String) : ZkCommitment :=
  let nonce : Int := (nonceFromBytes rawBytes : Int)
  { commitment := sha256Commitment target nonce
    nonce := nonce
    target := target
    sessionId := sessionId
    round := round
    phase := phase
    createdAt := createdAt }

/-- `saveAll(items)`: persist `items.slice(-50)` — at most the 50 most recent
entries. -/
def saveAll (items : List ZkCommitment) : List ZkCommitment :=
  items.drop (items.length - 50)

/-- The store transition a `zkCommit` call performs:
`saveAll([...loadAll(), entry])`. -/
def zkCommitStore (store : List ZkCommitment) (entry : ZkCommitment) :
    List ZkCommitment :=
  saveAll (store ++ [entry])

/-- The match test of `getStoredCommitment`'s loop body. -/
def matchesKey (sessionId round phase : Int) (c : ZkCommitment) : Bool :=
  c.sessionId == sessionId && c.round == round && c.phase == phase

/-- The loop of `getStoredCommitment`: scan from the last index down, return
the first entry satisfying `p`. -/
def findLatest (p : ZkCommitment → Bool) : List ZkCommitment → Option ZkCommitment
  | [] => none
  | c :: rest =>
    match findLatest p rest with
    | some r => some r
    | none => if p c then some c else none

/-- `getStoredCommitment(sessionId, round, phase)` over the store contents. -/
def getStoredCommitment (all : List ZkCommitment) (sessionId round phase : Int) :
    Option ZkCommitment :=
  findLatest (matchesKey sessionId round phase) all

/-! ### The Poseidon revision of `zkActionService.ts`

`poseidon2` is the external `poseidon-lite` hash over the BN254 scalar field;
the repository treats it as an opaque black box, so it is embedded as an
abstract parameter `poseidon2 : Int → Int → Nat` returning the field element
`Poseidon([BigInt(target), nonce])`. -/

/-- The BN254 scalar field prime, verbatim from the source. -/
def SNARK_FIELD_SIZE : Nat :=
  21888242871839275222246405745257275088548364400416034343698204186575808495617

/-- `'0x' + poseidon2([BigInt(target), nonce]).toString(16).padStart(64, '0')`. -/
def poseidonCommitmentHex (poseidon2 : Int → Int → Nat) (target nonce : Int) :
    String :=
  "0x" ++ jsPadStart (natToHex (poseidon2 target nonce)) 64 '0'

/-- `zkCommit` (Poseidon revision): the nonce is the drawn 128-bit value
reduced mod `SNARK_FIELD_SIZE`. -/
def zkCommitPoseidon (poseidon2 : Int → Int → Nat)
    (target sessionId round phase : Int) (rawBytes : List Nat)
    (createdAt : String) : ZkCommitment :=
  let nonce : Int := ((nonceFromBytes rawBytes % SNARK_FIELD_SIZE : Nat) : Int)
  { commitment := poseidonCommitmentHex poseidon2 target nonce
    nonce := nonce
    target := target
    sessionId := sessionId
    round := round
    phase := phase
    createdAt := createdAt }

/-- `zkVerify` (Poseidon revision): recompute and compare case-insensitively. -/
def zkVerifyPoseidon (poseidon2 : Int → Int → Nat) (commitment : String)
    (target nonce : Int) : Bool :=
  jsToLower (poseidonCommitmentHex poseidon2 target nonce) == jsToLower commitment

/-! ### The `try ... catch` structure of both `zkVerify` revisions

To state exception-safety the hash backends are modelled as possibly-failing
functions (`Except String _`); the body inside `try` is the `Attempt`
function, and the deployed verifier is the `Caught` wrapper that turns any
failure into `false`. -/

/-- The body of the SHA-256 `zkVerify` before the `catch`, over a
possibly-failing digest backend. -/
def zkVerifyAttempt (digestFn : List Nat → Except String (List Nat))
    (commitment : String) (target nonce : Int) : Except String Bool :=
  match digestFn (sha256Preimage target nonce) with
  | Except.ok d => Except.ok (jsToLower ("0x" ++ bytesToHex d) == jsToLower commitment)
  | Except.error e => Except.error e

/-- The SHA-256 `zkVerify` with its `catch`: a failure yields `false`. -/
def zkVerifyCaught (digestFn : List Nat → Except String (List Nat))
    (commitment : String) (target nonce : Int) : Bool :=
  match zkVerifyAttempt digestFn commitment target nonce with
  | Except.ok b => b
  | Except.error _ => false

/-- The body of the Poseidon `zkVerify` before the `catch`, over a
possibly-failing hash backend. -/
def zkVerifyPoseidonAttempt (poseidon2E : Int → Int → Except String Nat)
    (commitment : String) (target nonce : Int) : Except String Bool :=
  match poseidon2E target nonce with
  | Except.ok h =>
    Except.ok (jsToLower ("0x" ++ jsPadStart (natToHex h) 64 '0') == jsToLower commitment)
  | Except.error e => Except.error e

/-- The Poseidon `zkVerify` with its `catch`: a failure yields `false`. -/
def zkVerifyPoseidonCaught (poseidon2E : Int → Int → Except String Nat)
    (commitment : String) (target nonce : Int) : Bool :=
  match zkVerifyPoseidonAttempt poseidon2E commitment target nonce with
  | Except.ok b => b
  | Except.error _ => false

/-! ### Contract bindings: the `MafiaError` enumerations

`bindings.ts` exists in two revisions.  The commit-reveal revision (bundled
with `zkActionService.ts`) lists thirteen errors; the plaintext revision
(`sgs_frontend/.../bindings.ts`) lists eleven.  Each is embedded verbatim as
an association list in source order. -/

/-- The `MafiaError` object of the commit-reveal bindings revision. -/
def MafiaErrorCommitReveal : List (Nat × String) :=
  [(1, "GameNotFound"), (2, "GameFull"), (3, "AlreadyJoined"), (4, "NotInGame"),
   (5, "WrongPhase"), (6, "AlreadyActed"), (7, "InvalidTarget"), (8, "NotAlive"),
   (9, "GameAlreadyOver"), (10, "NotCreator"), (11, "SessionExists"),
   (12, "InvalidReveal"), (13, "NoCommitment")]

/-- The `MafiaError` object of the plaintext (sgs_frontend) bindings revision. -/
def MafiaErrorPlaintext : List (Nat × String) :=
  [(1, "GameNotFound"), (2, "GameFull"), (3, "AlreadyJoined"), (4, "NotInGame"),
   (5, "WrongPhase"), (6, "AlreadyActed"), (7, "InvalidTarget"), (8, "NotAlive"),
   (9, "GameAlreadyOver"), (10, "NotCreator"), (11, "SessionExists")]

/-- The spec's thirteen-error taxonomy, in the claimed order with codes 1–13. -/
def specErrorTaxonomy : List (Nat × String) :=
  [(1, "GameNotFound"), (2, "GameFull"), (3, "AlreadyJoined"), (4, "NotInGame"),
   (5, "WrongPhase"), (6, "AlreadyActed"), (7, "InvalidTarget"), (8, "NotAlive"),
   (9, "GameAlreadyOver"), (10, "NotCreator"), (11, "SessionExists"),
   (12, "InvalidReveal"), (13, "NoCommitment")]

/-! ### Contract bindings: `Game` and `Slot` -/

/-- A `Slot` of the bindings (`commitment` exists only in the commit-reveal
revision; the plaintext revision has the other five fields). -/
structure Slot where
  action : Option Nat
  addr : Option String
  alive : Bool
  commitment : Option (List Nat)
  role : Nat
  submitted : Bool
deriving DecidableEq

/-- The `Game` snapshot of the bindings (identical in both revisions). -/
structure Game where
  creator : String
  day : Nat
  human_count : Nat
  invest_is_mafia : Bool
  last_investigated : Option Nat
  last_killed : Option Nat
  last_saved : Bool
  last_voted_out : Option Nat
  phase : Nat
  slots : List Slot
  wager : Int
  winner : Option Nat
deriving DecidableEq

/-- Role constants, mirrored from the contract in both frontend revisions. -/
def ROLE_MAFIA : Nat := 0
def ROLE_VILLAGER : Nat := 1
def ROLE_DOCTOR : Nat := 2
def ROLE_SHERIFF : Nat := 3

/-- Phase constants of the commit-reveal revision. -/
def PHASE_LOBBY : Nat := 0
def PHASE_NIGHT_COMMIT : Nat := 1
def PHASE_NIGHT_REVEAL : Nat := 2
def PHASE_DAY : Nat := 3
def PHASE_OVER : Nat := 4

/-- Phase constants of the plaintext revision (no reveal sub-phase). -/
def PHASE_NIGHT_PLAIN : Nat := 1
def PHASE_DAY_PLAIN : Nat := 2
def PHASE_OVER_PLAIN : Nat := 3

/-- The icon/label part of the frontend `ROLE_META` table. -/
structure RoleMeta where
  icon : String
  label : String
deriving DecidableEq

/-- `ROLE_META[role]` (icon and label).  Contract roles are always 0–3; the
default branch stands in for the JS `undefined` lookup. -/
def roleMeta (role : Nat) : RoleMeta :=
  if role = ROLE_MAFIA then { icon := "🔪", label := "Mafia" }
  else if role = ROLE_VILLAGER then { icon := "👤", label := "Villager" }
  else if role = ROLE_DOCTOR then { icon := "💊", label := "Doctor" }
  else if role = ROLE_SHERIFF then { icon := "⭐", label := "Sheriff" }
  else { icon := "", label := "" }

/-- `shortAddr(a) = a.slice(0, 6) + '…' + a.slice(-4)`. -/
def shortAddr (a : String) : String :=
  String.mk (a.data.take 6) ++ "…" ++ String.mk (a.data.drop (a.data.length - 4))

/-- `slotName(sl, i)`: the shortened occupant address, or the bot label for an
unoccupied slot (a present contract address is never the empty string). -/
def slotName (sl : Slot) (i : Nat) : String :=
  match sl.addr with
  | some a => shortAddr a
  | none => "AI Bot #" ++ toString (i + 1)

/-- Stand-in for a JS out-of-range `game.slots[i]` access in the older
renderer (the contract state always carries exactly 8 slots). -/
def defaultSlot : Slot :=
  { action := none, addr := none, alive := true, commitment := none,
    role := 0, submitted := false }

/-- `targetLabel(target, slotNames)` from `zkActionService.ts`. -/
def targetLabel (target : Int) (slotNames : List String) : String :=
  if target == 4294967295 then "Pass / Abstain"
  else
    match (if 0 ≤ target then slotNames.get? target.toNat else none) with
    | some s => s
    | none => "Slot #" ++ toString target

/-- The slot-name list `game.slots.map((sl, i) => slotName(sl, i))`. -/
def gameSlotNames (g : Game) : List String :=
  g.slots.mapIdx (fun i sl => slotName sl i)

/-! ### The two `LastEvent` renderers

Each is embedded as a pure function from the data it reads to the list of
(icon, text) lines it renders. -/

/-- The `LastEvent` summary of the older (plaintext) frontend revision
(`part_000`): kill line, then the Sheriff's investigation line — rendered for
EVERY viewer, the function never looks at the viewer's role — then the day
vote line. -/
def lastEventOld (g : Game) : List (String × String) :=
  (match g.last_killed with
   | some i =>
     let who := slotName (g.slots.getD i defaultSlot) i
     [if g.last_saved then ("🛡", who ++ " was attacked — Doctor saved them!")
      else ("💀", who ++ " was eliminated by the Mafia.")]
   | none => [])
  ++ (match g.last_investigated with
      | some i =>
        [("🔍", "Sheriff investigated "
            ++ slotName (g.slots.getD i defaultSlot) i ++ ": "
            ++ (if g.invest_is_mafia then "⚠️ IS Mafia!" else "✅ Town member."))]
      | none => [])
  ++ (match g.last_voted_out with
      | some i =>
        let sl := g.slots.getD i defaultSlot
        [("🗳", "Town voted out " ++ slotName sl i ++ " — they were "
            ++ (roleMeta sl.role).icon ++ " " ++ (roleMeta sl.role).label ++ "!")]
      | none => [])

/-- The `LastEvent` summary of the commit-reveal frontend revision: kill line,
day vote line, the investigation line only when the viewer's slot (`me`) has
the Sheriff role, and the ZK reveal reminder read from the client store. -/
def lastEventNew (g : Game) (me : Option Slot) (store : List ZkCommitment)
    (sid : Int) : List (String × String) :=
  let isSheriff : Bool := match me with
    | some sl => sl.role == ROLE_SHERIFF
    | none => false
  (match g.last_killed with
   | some i =>
     match g.slots.get? i with
     | some killed =>
       [if g.last_saved then
          ("🛡️", slotName killed i ++ " was attacked — Doctor saved them!")
        else ("💀", slotName killed i ++ " was eliminated by the Mafia.")]
     | none => []
   | none => [])
  ++ (match g.last_voted_out with
      | some i =>
        match g.slots.get? i with
        | some voted =>
          [("🗳️", "Town voted out " ++ slotName voted i ++ " — they were "
              ++ (roleMeta voted.role).icon ++ " "
              ++ (roleMeta voted.role).label ++ "!")]
        | none => []
      | none => [])
  ++ (if isSheriff then
       match g.last_investigated with
       | some i =>
         match g.slots.get? i with
         | some investigated =>
           [("🔍", "[Sheriff] You investigated " ++ slotName investigated i
               ++ ": "
               ++ (if g.invest_is_mafia then "⚠️ IS Mafia!" else "✅ Town member."))]
         | none => []
       | none => []
      else [])
  ++ (if g.phase = PHASE_NIGHT_COMMIT ∧ 1 < g.day then
       match getStoredCommitment store sid ((g.day - 1 : Nat) : Int)
           ((PHASE_NIGHT_COMMIT : Nat) : Int) with
       | some storedProof =>
         [("🔐", "Your ZK commitment from last night was for \""
             ++ targetLabel storedProof.target (gameSlotNames g)
             ++ "\" — sha256 verified onchain ✅")]
       | none => []
      else [])

/-! ### Spec-worded commitment encoding (comparison target for refinement)

The spec states the preimage bit-exactly: bytes 0..4 the target as a
big-endian uint32, bytes 4..12 the nonce as a big-endian uint64, and the
commitment as the `0x`-prefixed lowercase hex of the SHA-256 digest of those
12 bytes. -/

/-- The 12 preimage bytes exactly as the spec words them. -/
def specCommitmentPreimage (target nonce : Nat) : List Nat :=
  [target / 2 ^ 24 % 256, target / 2 ^ 16 % 256, target / 2 ^ 8 % 256,
   target % 256,
   nonce / 2 ^ 56 % 256, nonce / 2 ^ 48 % 256, nonce / 2 ^ 40 % 256,
   nonce / 2 ^ 32 % 256, nonce / 2 ^ 24 % 256, nonce / 2 ^ 16 % 256,
   nonce / 2 ^ 8 % 256, nonce % 256]

/-- The commitment as the spec words it. -/
def specSha256Commitment (target nonce : Nat) : String :=
  "0x" ++ bytesToHex (sha256 (specCommitmentPreimage target nonce))

/-! ### Commitment string format and hex parsing -/

/-- Is `c` one of the sixteen lowercase hex digit characters? -/
def isHexLower (c : Char) : Bool :=
  decide ((48 ≤ c.toNat ∧ c.toNat ≤ 57) ∨ (97 ≤ c.toNat ∧ c.toNat ≤ 102))

/-- Does `s` consist of the prefix `0x` followed by exactly 64 lowercase hex
digit characters? -/
def commitmentFormatOk (s : String) : Bool :=
  s.data.take 2 == ['0', 'x']
  && (s.data.drop 2).length == 64
  && (s.data.drop 2).all isHexLower

/-- The numeric value a `0x`-prefixed hex commitment string denotes. -/
def parseCommitmentValue (s : String) : Nat := hexListVal (s.data.drop 2)

/-! ### Concrete states for counterexamples and witnesses -/

/-- A concrete non-Sheriff viewer slot (a Villager). -/
def villagerSlot : Slot :=
  { action := none, addr := none, alive := true, commitment := none,
    role := ROLE_VILLAGER, submitted := false }

/-- A concrete game state in which the Sheriff has investigated seat 0 and
found Mafia. -/
def cexGameA : Game :=
  { creator := "GCREATOR", day := 2, human_count := 1,
    invest_is_mafia := true, last_investigated := some 0,
    last_killed := none, last_saved := false, last_voted_out := none,
    phase := PHASE_DAY_PLAIN, slots := [villagerSlot], wager := 100,
    winner := none }

/-- `cexGameA` with the investigation result blanked out; the two states
differ only in `last_investigated` and `invest_is_mafia`. -/
def cexGameB : Game :=
  { creator := "GCREATOR", day := 2, human_count := 1,
    invest_is_mafia := false, last_investigated := none,
    last_killed := none, last_saved := false, last_voted_out := none,
    phase := PHASE_DAY_PLAIN, slots := [villagerSlot], wager := 100,
    winner := none }

/-! ## Lemmas -/

/-- FIPS 180-4 test vector: SHA-256 of the empty message. -/
theorem sha256_nil :
    sha256 [] =
      [227, 176, 196, 66, 152, 252, 28, 20, 154, 251, 244, 200, 153, 111, 185,
   36, 39, 174, 65, 228, 100, 155, 147, 76, 164, 149, 153, 27, 120, 82,
   184, 85] := by decide

/-- FIPS 180-4 test vector: SHA-256 of the three bytes of "abc". -/
theorem sha256_abc :
    sha256 [97, 98, 99] =
      [186, 120, 22, 191, 143, 1, 207, 234, 65, 65, 64, 222, 93, 174, 34, 35,
   176, 3, 97, 163, 150, 23, 122, 156, 180, 16, 255, 97, 242, 0, 21, 173] := by decide

/-- Every character `hexCharsAux` emits is a lowercase hex digit. -/
theorem hexCharsAux_hex (fuel : Nat) :
    ∀ n, ∀ c ∈ hexCharsAux fuel n, isHexLower c = true := by
  induction fuel with
  | zero => intro n c hc; simp [hexCharsAux] at hc
  | succ fuel ih =>
    intro n c hc
    unfold hexCharsAux at hc
    by_cases h16 : n < 16
    · simp [h16] at hc
      subst hc
      unfold hexDigitChar
      interval_cases n <;> decide
    · simp [h16, List.mem_append] at hc
      rcases hc with hc | hc
      · exact ih _ c hc
      · subst hc
        have : n % 16 < 16 := Nat.mod_lt _ (by decide)
        unfold hexDigitChar
        interval_cases h : n % 16 <;> simp_all <;> decide

/-- `hexCharsAux` emits at most `k` digits for a value below `16 ^ k`. -/
theorem hexCharsAux_length_le (fuel : Nat) :
    ∀ n k, 0 < k → n < 16 ^ k → (hexCharsAux fuel n).length ≤ k := by
  induction fuel with
  | zero => intro n k hk _; simp [hexCharsAux]
  | succ fuel ih =>
    intro n k hk hn
    unfold hexCharsAux
    by_cases h16 : n < 16
    · simp [h16]; omega
    · simp [h16]
      obtain ⟨k', rfl⟩ : ∃ k', k = k' + 1 := ⟨k - 1, by omega⟩
      have hk' : 0 < k' := by
        rcases Nat.eq_zero_or_pos k' with h | h
        · subst h; simp [pow_succ] at hn; omega
        · exact h
      have hdiv : n / 16 < 16 ^ k' := by
        rw [Nat.div_lt_iff_lt_mul (by decide : 0 < 16)]
        calc n < 16 ^ (k' + 1) := hn
        _ = 16 ^ k' * 16 := by ring
      have := ih (n / 16) k' hk' hdiv
      omega

/-- The value of one emitted hex digit. -/
theorem hexDigitVal_hexDigitChar (n : Nat) (h : n < 16) :
    hexDigitVal (hexDigitChar n) = n := by
  unfold hexDigitVal hexDigitChar
  interval_cases n <;> decide

/-- Appending one digit multiplies the parsed value by 16 and adds the digit. -/
theorem hexListVal_append_digit (l : List Char) (c : Char) :
    hexListVal (l ++ [c]) = 16 * hexListVal l + hexDigitVal c := by
  unfold hexListVal
  rw [List.foldl_append]
  rfl

/-- `hexCharsAux` round-trips through parsing whenever the fuel suffices. -/
theorem hexListVal_hexCharsAux (fuel : Nat) :
    ∀ n, n < fuel → hexListVal (hexCharsAux fuel n) = n := by
  induction fuel with
  | zero => omega
  | succ fuel ih =>
    intro n hn
    unfold hexCharsAux
    by_cases h16 : n < 16
    · simp [h16, hexListVal, hexDigitVal_hexDigitChar n h16]
    · simp only [h16, if_false]
      rw [hexListVal_append_digit,
        ih (n / 16) (by omega),
        hexDigitVal_hexDigitChar _ (Nat.mod_lt _ (by decide))]
      omega

/-- Leading `'0'` padding does not change a parsed hex value. -/
theorem hexListVal_replicate_zero (k : Nat) (l : List Char) :
    hexListVal (List.replicate k '0' ++ l) = hexListVal l := by
  unfold hexListVal
  rw [List.foldl_append]
  have : List.foldl (fun a c => 16 * a + hexDigitVal c) 0 (List.replicate k '0') = 0 := by
    induction k with
    | zero => rfl
    | succ k ihk => simpa [List.replicate_succ, hexDigitVal] using ihk
  rw [this]

/-- Parsing inverts the Poseidon-revision commitment encoding. -/
theorem parse_poseidonCommitment (poseidon2 : Int → Int → Nat) (t n : Int) :
    parseCommitmentValue (poseidonCommitmentHex poseidon2 t n) = poseidon2 t n := by
  unfold parseCommitmentValue poseidonCommitmentHex jsPadStart natToHex
  simp [String.data_append, hexListVal_replicate_zero,
    hexListVal_hexCharsAux (poseidon2 t n + 1) (poseidon2 t n) (by omega)]

/-- One compression round preserves the state length. -/
theorem compressRound_length (st : List Nat) (k w : Nat) :
    (compressRound st k w).length = st.length := by
  unfold compressRound
  split <;> simp

/-- Folding compression rounds preserves the state length. -/
theorem foldl_compressRound_length (l : List (Nat × Nat)) :
    ∀ st : List Nat,
      (l.foldl (fun s kw => compressRound s kw.1 kw.2) st).length = st.length := by
  induction l with
  | nil => intro st; rfl
  | cons kw rest ih =>
    intro st
    rw [List.foldl_cons, ih, compressRound_length]

/-- Compressing a block preserves the 8-word hash state. -/
theorem compressBlock_length (h block : List Nat) (hh : h.length = 8) :
    (compressBlock h block).length = 8 := by
  unfold compressBlock
  rw [List.length_zipWith, foldl_compressRound_length, hh]
  simp

/-- Folding block compressions preserves the 8-word hash state. -/
theorem foldl_compressBlock_length (blocks : List (List Nat)) :
    ∀ h : List Nat, h.length = 8 → (blocks.foldl compressBlock h).length = 8 := by
  induction blocks with
  | nil => intro h hh; exact hh
  | cons b rest ih =>
    intro h hh
    rw [List.foldl_cons]
    exact ih _ (compressBlock_length h b hh)

/-- Serialising hash words yields 4 bytes per word. -/
theorem length_flatten_words (hw : List Nat) :
    ((hw.map (fun wd => [wd / 2 ^ 24 % 256, wd / 2 ^ 16 % 256,
      wd / 2 ^ 8 % 256, wd % 256])).flatten).length = 4 * hw.length := by
  induction hw with
  | nil => rfl
  | cons wd rest ih =>
    simp only [List.map_cons, List.flatten_cons, List.length_append, ih,
      List.length_cons, List.length_nil]
    omega

/-- A SHA-256 digest has exactly 32 bytes. -/
theorem sha256_length (msg : List Nat) : (sha256 msg).length = 32 := by
  unfold sha256
  rw [length_flatten_words,
    foldl_compressBlock_length _ sha256H0 (by decide)]

/-- Every byte of a SHA-256 digest is below 256. -/
theorem sha256_mem_lt (msg : List Nat) : ∀ b ∈ sha256 msg, b < 256 := by
  unfold sha256
  intro b hb
  simp only [List.mem_flatten, List.mem_map] at hb
  obtain ⟨l, ⟨wd, _, rfl⟩, hbl⟩ := hb
  simp only [List.mem_cons, List.not_mem_nil, or_false] at hbl
  rcases hbl with rfl | rfl | rfl | rfl <;> omega

/-- `String.join` concatenates the character lists. -/
theorem join_data_aux (l : List String) :
    ∀ acc : String,
      (l.foldl (fun r s => r ++ s) acc).data
        = acc.data ++ (l.map String.data).flatten := by
  induction l with
  | nil => intro acc; simp
  | cons s rest ih =>
    intro acc
    rw [List.foldl_cons, ih]
    simp [String.data_append]

/-- The characters of `bytesToHex` are the per-byte hex pairs in order. -/
theorem bytesToHex_data (bs : List Nat) :
    (bytesToHex bs).data = ((bs.map byteToHex).map String.data).flatten := by
  unfold bytesToHex String.join
  rw [join_data_aux]
  rfl

/-- The characters of `jsPadStart`. -/
theorem jsPadStart_data (s : String) (w : Nat) (c : Char) :
    (jsPadStart s w c).data = List.replicate (w - s.length) c ++ s.data := by
  unfold jsPadStart
  simp [String.data_append]

/-- The characters of `String.mk` are the given list. -/
theorem data_mk (l : List Char) : (String.mk l).data = l := rfl

/-- One byte renders as exactly two characters. -/
theorem byteToHex_length (b : Nat) (hb : b < 256) :
    (byteToHex b).data.length = 2 := by
  unfold byteToHex
  rw [jsPadStart_data]
  have hle : (hexCharsAux (b + 1) b).length ≤ 2 :=
    hexCharsAux_length_le (b + 1) b 2 (by omega) (by omega)
  simp only [List.length_append, List.length_replicate, natToHex, String.length_mk,
    data_mk]
  omega

/-- One byte renders as lowercase hex characters. -/
theorem byteToHex_hex (b : Nat) :
    ∀ c ∈ (byteToHex b).data, isHexLower c = true := by
  unfold byteToHex
  rw [jsPadStart_data]
  intro c hc
  rcases List.mem_append.mp hc with hc | hc
  · rw [List.eq_of_mem_replicate hc]; decide
  · exact hexCharsAux_hex _ _ c hc

/-- The hex string of a byte list has two characters per byte. -/
theorem bytesToHex_length (bs : List Nat) (h : ∀ b ∈ bs, b < 256) :
    (bytesToHex bs).data.length = 2 * bs.length := by
  rw [bytesToHex_data]
  induction bs with
  | nil => rfl
  | cons b rest ih =>
    simp only [List.map_cons, List.flatten_cons, List.length_append,
      List.length_cons]
    rw [byteToHex_length b (h b (by simp)), ih (fun x hx => h x (by simp [hx]))]
    omega

/-- Every character of `bytesToHex` is a lowercase hex digit. -/
theorem bytesToHex_hex (bs : List Nat) :
    ∀ c ∈ (bytesToHex bs).data, isHexLower c = true := by
  rw [bytesToHex_data]
  intro c hc
  simp only [List.mem_flatten, List.mem_map] at hc
  obtain ⟨l, ⟨s, ⟨b, _, rfl⟩, rfl⟩, hcl⟩ := hc
  exact byteToHex_hex b c hcl

/-- Every SHA-256-revision commitment string is `0x` plus 64 lowercase hex
digits. -/
theorem sha256Commitment_format (t n : Int) :
    commitmentFormatOk (sha256Commitment t n) = true := by
  unfold commitmentFormatOk sha256Commitment
  have hdata : ("0x" ++ bytesToHex (sha256 (sha256Preimage t n))).data
      = '0' :: 'x' :: (bytesToHex (sha256 (sha256Preimage t n))).data := by
    rw [String.data_append]
    rfl
  rw [hdata]
  have hlen : (bytesToHex (sha256 (sha256Preimage t n))).data.length = 64 := by
    rw [bytesToHex_length _ (sha256_mem_lt _), sha256_length]
  simp [hlen, List.all_eq_true]
  exact bytesToHex_hex _

/-- Every Poseidon-revision commitment string is `0x` plus 64 lowercase hex
digits, given that the hash value is a BN254 field element. -/
theorem poseidonCommitmentHex_format (poseidon2 : Int → Int → Nat) (t n : Int)
    (h : poseidon2 t n < SNARK_FIELD_SIZE) :
    commitmentFormatOk (poseidonCommitmentHex poseidon2 t n) = true := by
  unfold commitmentFormatOk poseidonCommitmentHex
  have hlt : poseidon2 t n < 16 ^ 64 :=
    lt_trans h (by unfold SNARK_FIELD_SIZE; decide)
  have hle : (hexCharsAux (poseidon2 t n + 1) (poseidon2 t n)).length ≤ 64 :=
    hexCharsAux_length_le _ _ 64 (by omega) hlt
  have hdata : ("0x" ++ jsPadStart (natToHex (poseidon2 t n)) 64 '0').data
      = '0' :: 'x' :: (List.replicate (64 - (natToHex (poseidon2 t n)).length) '0'
          ++ (hexCharsAux (poseidon2 t n + 1) (poseidon2 t n))) := by
    rw [String.data_append, jsPadStart_data]
    rfl
  rw [hdata]
  have hlen :
      (List.replicate (64 - (natToHex (poseidon2 t n)).length) '0'
        ++ hexCharsAux (poseidon2 t n + 1) (poseidon2 t n)).length = 64 := by
    simp only [List.length_append, List.length_replicate, natToHex,
      String.length_mk]
    omega
  have hall : ∀ c ∈ List.replicate (64 - (natToHex (poseidon2 t n)).length) '0'
      ++ hexCharsAux (poseidon2 t n + 1) (poseidon2 t n), isHexLower c = true := by
    intro c hc
    rcases List.mem_append.mp hc with hc | hc
    · rw [List.eq_of_mem_replicate hc]; decide
    · exact hexCharsAux_hex _ _ c hc
  simp [hlen, List.all_eq_true]
  exact ⟨Or.inr (by decide), hexCharsAux_hex _ _⟩

/-- On u32 targets and u64 nonces the `DataView` preimage equals the spec's
big-endian byte layout. -/
theorem sha256Preimage_eq_spec (t n : Nat) (ht : t < 2 ^ 32) (hn : n < 2 ^ 64) :
    sha256Preimage (t : Int) (n : Int) = specCommitmentPreimage t n := by
  unfold sha256Preimage specCommitmentPreimage jsToUint32 be32
  rw [Int.fdiv_eq_ediv _ (by omega)]
  have h1 : ((t : Int) % 4294967296).toNat = t := by omega
  have h2 : (((n : Int) / 4294967296) % 4294967296).toNat = n / 4294967296 := by
    omega
  have h3 : ((n : Int) % 4294967296).toNat = n % 4294967296 := by omega
  rw [h1, h2, h3]
  simp only [List.cons_append, List.nil_append, List.cons.injEq, and_true]
  refine ⟨?_, ?_, ?_, ?_, ?_, ?_, ?_, ?_, ?_, ?_, ?_, ?_⟩ <;> first | omega | trivial

/-! ## Claims -/

/-- C1: round-trip of the commitment scheme — for every u32 target and every
nonce produced by the scheme's nonce generator (8 random bytes in the SHA-256
revision, 16 random bytes reduced mod the field in the Poseidon revision),
verifying the freshly created commitment with the same target and nonce
returns `true`, in both revisions of `zkActionService`. -/
theorem commitRoundtrip (poseidon2 : Int → Int → Nat)
    (target sessionId round phase : Int) (createdAt : String)
    (bsS bsP : List Nat)
    (_ht0 : 0 ≤ target) (_ht : target < 4294967296)
    (_hbs : bsS.length = 8) (_hbp : bsP.length = 16) :
    zkVerify (zkCommit target sessionId round phase bsS createdAt).commitment
        (zkCommit target sessionId round phase bsS createdAt).target
        (zkCommit target sessionId round phase bsS createdAt).nonce = true
    ∧ zkVerifyPoseidon poseidon2
        (zkCommitPoseidon poseidon2 target sessionId round phase bsP
          createdAt).commitment
        (zkCommitPoseidon poseidon2 target sessionId round phase bsP
          createdAt).target
        (zkCommitPoseidon poseidon2 target sessionId round phase bsP
          createdAt).nonce = true := by
  constructor <;> simp [zkVerify, zkCommit, zkVerifyPoseidon, zkCommitPoseidon]

/-- C1 witness: the round trip at a concrete target and concrete drawn bytes,
in both revisions. -/
theorem commitRoundtripWitness :
    (0 : Int) ≤ 3 ∧ (3 : Int) < 4294967296
    ∧ ([0, 1, 2, 3, 4, 5, 6, 7] : List Nat).length = 8
    ∧ ([0, 0, 0, 0, 0, 0, 0, 0, 0, 0, 0, 0, 0, 0, 0, 9] : List Nat).length = 16
    ∧ (zkVerify (zkCommit 3 7 1 1 [0, 1, 2, 3, 4, 5, 6, 7] "now").commitment
         (zkCommit 3 7 1 1 [0, 1, 2, 3, 4, 5, 6, 7] "now").target
         (zkCommit 3 7 1 1 [0, 1, 2, 3, 4, 5, 6, 7] "now").nonce = true
       ∧ zkVerifyPoseidon (fun _ _ => 0)
         (zkCommitPoseidon (fun _ _ => 0) 3 7 1 1
           [0, 0, 0, 0, 0, 0, 0, 0, 0, 0, 0, 0, 0, 0, 0, 9] "now").commitment
         (zkCommitPoseidon (fun _ _ => 0) 3 7 1 1
           [0, 0, 0, 0, 0, 0, 0, 0, 0, 0, 0, 0, 0, 0, 0, 9] "now").target
         (zkCommitPoseidon (fun _ _ => 0) 3 7 1 1
           [0, 0, 0, 0, 0, 0, 0, 0, 0, 0, 0, 0, 0, 0, 0, 9] "now").nonce = true) :=
  ⟨by decide, by decide, by decide, by decide,
   commitRoundtrip (fun _ _ => 0) 3 7 1 1 "now" [0, 1, 2, 3, 4, 5, 6, 7]
     [0, 0, 0, 0, 0, 0, 0, 0, 0, 0, 0, 0, 0, 0, 0, 9]
     (by decide) (by decide) (by decide) (by decide)⟩

/-- C2: the commitment preimage encoding is bit-exact as specified — for every
u32 target and u64 nonce, `sha256Commitment` equals the spec-worded
commitment: `0x` plus the lowercase hex of the SHA-256 digest of exactly 12
bytes, target as big-endian uint32 then nonce as big-endian uint64. -/
theorem commitmentEncodingSpec (t n : Nat) (ht : t < 2 ^ 32) (hn : n < 2 ^ 64) :
    sha256Commitment (t : Int) (n : Int) = specSha256Commitment t n
    ∧ sha256Preimage (t : Int) (n : Int) = specCommitmentPreimage t n
    ∧ (specCommitmentPreimage t n).length = 12 := by
  have hp := sha256Preimage_eq_spec t n ht hn
  refine ⟨?_, hp, by simp [specCommitmentPreimage]⟩
  unfold sha256Commitment specSha256Commitment
  rw [hp]

/-- C2 witness: the encoding agreement at target 1, nonce 2. -/
theorem commitmentEncodingSpecWitness :
    (1 : Nat) < 2 ^ 32 ∧ (2 : Nat) < 2 ^ 64
    ∧ (sha256Commitment ((1 : Nat) : Int) ((2 : Nat) : Int)
         = specSha256Commitment 1 2
       ∧ sha256Preimage ((1 : Nat) : Int) ((2 : Nat) : Int)
         = specCommitmentPreimage 1 2
       ∧ (specCommitmentPreimage 1 2).length = 12) :=
  ⟨by decide, by decide, commitmentEncodingSpec 1 2 (by decide) (by decide)⟩

/-- C3: verification is exact recompute-and-compare — `zkVerify` returns
`true` exactly when the recomputed commitment equals the stored one under
case-insensitive comparison, and `false` (the `InvalidReveal` outcome)
exactly when it differs, in both revisions. -/
theorem verifyExactRecompute (poseidon2 : Int → Int → Nat) (c : String)
    (t n : Int) :
    (zkVerify c t n = true ↔ jsToLower (sha256Commitment t n) = jsToLower c)
    ∧ (zkVerify c t n = false ↔ jsToLower (sha256Commitment t n) ≠ jsToLower c)
    ∧ (zkVerifyPoseidon poseidon2 c t n = true
        ↔ jsToLower (poseidonCommitmentHex poseidon2 t n) = jsToLower c)
    ∧ (zkVerifyPoseidon poseidon2 c t n = false
        ↔ jsToLower (poseidonCommitmentHex poseidon2 t n) ≠ jsToLower c) := by
  unfold zkVerify zkVerifyPoseidon
  refine ⟨by simp, by simp, by simp, by simp⟩

/-- C5: the two commitment-scheme revisions are incompatible — at target 1 and
nonce 0 the Poseidon-revision commitment differs from the SHA-256-revision
commitment, for every hash function into the BN254 scalar field (the SHA-256
digest of that preimage denotes a value at or above the field prime, which no
field element's padded hex form can equal). -/
theorem schemesIncompatible (poseidon2 : Int → Int → Nat)
    (hfield : ∀ t n, poseidon2 t n < SNARK_FIELD_SIZE) :
    poseidonCommitmentHex poseidon2 1 0 ≠ sha256Commitment 1 0 := by
  intro heq
  have hv := parse_poseidonCommitment poseidon2 1 0
  rw [heq] at hv
  have hs : SNARK_FIELD_SIZE ≤ parseCommitmentValue (sha256Commitment 1 0) := by
    decide
  have := hfield 1 0
  omega

/-- C5 witness: the incompatibility instantiated at the constant-zero field
hash. -/
theorem schemesIncompatibleWitness :
    (∀ t n : Int, (fun _ _ => 0 : Int → Int → Nat) t n < SNARK_FIELD_SIZE)
    ∧ poseidonCommitmentHex (fun _ _ => 0) 1 0 ≠ sha256Commitment 1 0 :=
  ⟨fun _ _ => (by decide : (0 : Nat) < SNARK_FIELD_SIZE),
   schemesIncompatible (fun _ _ => 0)
     (fun _ _ => (by decide : (0 : Nat) < SNARK_FIELD_SIZE))⟩

/-- C9: `zkVerify` is total at the public interface — over any possibly
failing hash backend, the caught verifier either returns exactly the
comparison the attempt computed, or the attempt failed and the verifier
returns `false`; and the deployed SHA-256 verifier is the caught pipeline
over the never-failing digest. -/
theorem verifyTotal (digestFn : List Nat → Except String (List Nat))
    (poseidon2E : Int → Int → Except String Nat) (c : String) (t n : Int) :
    (zkVerifyAttempt digestFn c t n
        = Except.ok (zkVerifyCaught digestFn c t n)
      ∨ ((∃ e, zkVerifyAttempt digestFn c t n = Except.error e)
          ∧ zkVerifyCaught digestFn c t n = false))
    ∧ (zkVerifyPoseidonAttempt poseidon2E c t n
        = Except.ok (zkVerifyPoseidonCaught poseidon2E c t n)
      ∨ ((∃ e, zkVerifyPoseidonAttempt poseidon2E c t n = Except.error e)
          ∧ zkVerifyPoseidonCaught poseidon2E c t n = false))
    ∧ zkVerify c t n = zkVerifyCaught (fun bs => Except.ok (sha256 bs)) c t n := by
  refine ⟨?_, ?_, rfl⟩
  · unfold zkVerifyCaught
    cases zkVerifyAttempt digestFn c t n with
    | ok b => exact Or.inl rfl
    | error e => exact Or.inr ⟨⟨e, rfl⟩, rfl⟩
  · unfold zkVerifyPoseidonCaught
    cases zkVerifyPoseidonAttempt poseidon2E c t n with
    | ok b => exact Or.inl rfl
    | error e => exact Or.inr ⟨⟨e, rfl⟩, rfl⟩

/-- C10: commitment string format invariant — every commitment `zkCommit`
produces, in either revision, is `0x` followed by exactly 64 lowercase hex
digits (the Poseidon side under the library's guarantee that its output is a
BN254 field element). -/
theorem commitmentFormat (poseidon2 : Int → Int → Nat)
    (hfield : ∀ t n, poseidon2 t n < SNARK_FIELD_SIZE)
    (target sessionId round phase : Int) (bsS bsP : List Nat)
    (createdAt : String) :
    commitmentFormatOk
      (zkCommit target sessionId round phase bsS createdAt).commitment = true
    ∧ commitmentFormatOk
      (zkCommitPoseidon poseidon2 target sessionId round phase bsP
        createdAt).commitment = true := by
  constructor
  · simp only [zkCommit]
    exact sha256Commitment_format _ _
  · simp only [zkCommitPoseidon]
    exact poseidonCommitmentHex_format poseidon2 _ _ (hfield _ _)

/-- C10 witness: the format invariant at concrete inputs, with the
constant-zero field hash on the Poseidon side. -/
theorem commitmentFormatWitness :
    (∀ t n : Int, (fun _ _ => 0 : Int → Int → Nat) t n < SNARK_FIELD_SIZE)
    ∧ (commitmentFormatOk
         (zkCommit 2 7 1 1 [9, 8, 7, 6, 5, 4, 3, 2] "now").commitment = true
       ∧ commitmentFormatOk
         (zkCommitPoseidon (fun _ _ => 0) 2 7 1 1 [1] "now").commitment = true) :=
  ⟨fun _ _ => (by decide : (0 : Nat) < SNARK_FIELD_SIZE),
   commitmentFormat (fun _ _ => 0)
     (fun _ _ => (by decide : (0 : Nat) < SNARK_FIELD_SIZE)) 2 7 1 1
     [9, 8, 7, 6, 5, 4, 3, 2] [1] "now"⟩

/-- C7 counterexample: the plaintext bindings revision's `MafiaError` stops at
code 11 — it has no code 12 (`InvalidReveal`) nor 13 (`NoCommitment`) and is
not the claimed thirteen-error taxonomy. -/
theorem errorTaxonomyCex :
    MafiaErrorPlaintext.length = 11
    ∧ (MafiaErrorPlaintext.lookup 12).isNone = true
    ∧ (MafiaErrorPlaintext.lookup 13).isNone = true
    ∧ MafiaErrorPlaintext ≠ specErrorTaxonomy := by decide

/-- C7 (amended): the commit-reveal bindings revision's `MafiaError` is
exactly the thirteen errors `GameNotFound` … `NoCommitment` with codes 1–13
in the claimed order, and the plaintext revision is exactly its first eleven
entries (codes 1–11, same order), lacking `InvalidReveal` and
`NoCommitment`. -/
theorem errorTaxonomyAmended :
    MafiaErrorCommitReveal = specErrorTaxonomy
    ∧ MafiaErrorPlaintext = specErrorTaxonomy.take 11 := by decide

/-- The backward scan of `getStoredCommitment` finds the last matching entry,
i.e. the first match of the reversed store. -/
theorem findLatest_eq_find_reverse (p : ZkCommitment → Bool) :
    ∀ l : List ZkCommitment, findLatest p l = l.reverse.find? p := by
  intro l
  induction l with
  | nil => rfl
  | cons c rest ih =>
    unfold findLatest
    rw [ih, List.reverse_cons]
    cases hx : rest.reverse.find? p with
    | some r => simp [List.find?_append, hx]
    | none =>
      simp [List.find?_append, hx, List.find?]
      cases p c <;> rfl

/-- C8: the client-held secret store is keyed by (session, round, phase) and
evicts oldest entries — `getStoredCommitment` returns the most recently saved
matching commitment (none when nothing matches), `saveAll` keeps exactly the
at-most-50 most recent entries discarding an oldest prefix, and after any
non-empty sequence of `zkCommit` store transitions at most 50 entries
remain. -/
theorem secretStoreSpec :
    (∀ (store : List ZkCommitment) (sessionId round phase : Int),
      getStoredCommitment store sessionId round phase
        = store.reverse.find? (matchesKey sessionId round phase))
    ∧ (∀ (store : List ZkCommitment) (e : ZkCommitment)
        (sessionId round phase : Int),
        matchesKey sessionId round phase e = true →
        getStoredCommitment (store ++ [e]) sessionId round phase = some e)
    ∧ (∀ (store : List ZkCommitment) (sessionId round phase : Int),
        (∀ c ∈ store, matchesKey sessionId round phase c = false) →
        getStoredCommitment store sessionId round phase = none)
    ∧ (∀ items : List ZkCommitment,
        (saveAll items).length = min items.length 50
        ∧ items.take (items.length - 50) ++ saveAll items = items)
    ∧ (∀ (store news : List ZkCommitment), news ≠ [] →
        (news.foldl zkCommitStore store).length ≤ 50) := by
  have hmain : ∀ (store : List ZkCommitment) (sessionId round phase : Int),
      getStoredCommitment store sessionId round phase
        = store.reverse.find? (matchesKey sessionId round phase) :=
    fun store sessionId round phase =>
      findLatest_eq_find_reverse (matchesKey sessionId round phase) store
  have hstep : ∀ (store : List ZkCommitment) (e : ZkCommitment),
      (zkCommitStore store e).length ≤ 50 := by
    intro store e
    simp only [zkCommitStore, saveAll, List.length_drop]
    omega
  refine ⟨hmain, ?_, ?_, ?_, ?_⟩
  · intro store e sessionId round phase hmatch
    rw [hmain, List.reverse_append]
    simp [List.find?, hmatch]
  · intro store sessionId round phase hnone
    rw [hmain, List.find?_eq_none]
    intro c hc
    simp [hnone c (List.mem_reverse.mp hc)]
  · intro items
    constructor
    · simp only [saveAll, List.length_drop]
      omega
    · exact List.take_append_drop _ items
  · intro store news
    induction news generalizing store with
    | nil => intro h; exact absurd rfl h
    | cons e rest ih =>
      intro _
      rcases eq_or_ne rest [] with hrest | hrest
      · subst hrest
        simpa using hstep store e
      · rw [List.foldl_cons]
        exact ih (zkCommitStore store e) hrest

/-- C6 (amended): in the commit-reveal revision's renderer, the summary shown
to a viewer whose slot is not the Sheriff is independent of
`last_investigated` and `invest_is_mafia`. -/
theorem sheriffResultHidden (g : Game) (sl : Slot) (store : List ZkCommitment)
    (sid : Int) (inv : Option Nat) (b : Bool) (h : sl.role ≠ ROLE_SHERIFF) :
    lastEventNew { g with last_investigated := inv, invest_is_mafia := b }
        (some sl) store sid
      = lastEventNew g (some sl) store sid := by
  have hb : (sl.role == ROLE_SHERIFF) = false := by simp [h]
  have hslots : gameSlotNames
      { g with last_investigated := inv, invest_is_mafia := b }
      = gameSlotNames g := rfl
  unfold lastEventNew
  simp only [hb]
  simp [hslots]

/-- C6 witness: the independence at a concrete state and a concrete Villager
viewer. -/
theorem sheriffResultHiddenWitness :
    villagerSlot.role ≠ ROLE_SHERIFF
    ∧ lastEventNew
        { cexGameA with last_investigated := some 0, invest_is_mafia := true }
        (some villagerSlot) [] 0
      = lastEventNew cexGameA (some villagerSlot) [] 0 :=
  ⟨by decide,
   sheriffResultHidden cexGameA villagerSlot [] 0 (some 0) true (by decide)⟩

/-- C6 counterexample: in the older (plaintext) revision's renderer two
states that differ only in the investigation fields render differently — and
that renderer never looks at the viewer's role, so every viewer, the
non-Sheriffs included, sees the difference. -/
theorem sheriffResultLeakCex :
    cexGameB
      = { cexGameA with last_investigated := none, invest_is_mafia := false }
    ∧ lastEventOld cexGameA ≠ lastEventOld cexGameB := by decide

end MafiaDuel
